import Mathlib

/-!
Shallow embedding of the SQL safety gate (`backend/db/safe_query_analyzer.py`),
the LLM-output SQL extractor (`tools/extract_query.py`) and the relevant slice
of the LangGraph orchestration (`backend/agents/langgraph_agent.py`).

Python strings are modelled as `List Char` (ASCII-level: `str.lower`,
`str.strip`, regex `\s`/`\w`/`\d` are modelled on their ASCII behaviour, which
covers every input appearing in the claims).  Python regexes are compiled by
hand into deterministic matchers; each definition carries the regex it embeds.
-/

namespace Viz

/-- Python `str.strip()` whitespace set (ASCII part), also regex `\s`. -/
def isPySpace (c : Char) : Bool :=
  c == ' ' || c == '\t' || c == '\n' || c == '\r' || c == '\x0b' || c == '\x0c'

/-- Regex `\w` word character (ASCII part): `[A-Za-z0-9_]`. -/
def isWordChar (c : Char) : Bool :=
  (65 ≤ c.toNat && c.toNat ≤ 90) || (97 ≤ c.toNat && c.toNat ≤ 122) ||
  (48 ≤ c.toNat && c.toNat ≤ 57) || c == '_'

/-- Regex `\d` (ASCII digits). -/
def isDigitC (c : Char) : Bool := 48 ≤ c.toNat && c.toNat ≤ 57

/-- ASCII model of Python `str.lower` on a single character. -/
def lowerChar (c : Char) : Char :=
  if 65 ≤ c.toNat && c.toNat ≤ 90 then Char.ofNat (c.toNat + 32) else c

/-- Case-insensitive character comparison (regex flag `re.I`). -/
def eqCI (a b : Char) : Bool := lowerChar a == lowerChar b

/-- `str.lower` on a whole string. -/
def lowerL (l : List Char) : List Char := l.map lowerChar

/-- Case-insensitive literal prefix match. -/
def prefCI : List Char → List Char → Bool
  | [], _ => true
  | _ :: _, [] => false
  | k :: ks, c :: cs => eqCI k c && prefCI ks cs

/-- Left strip: Python `str.lstrip()` (whitespace). -/
def lstrip (l : List Char) : List Char := l.dropWhile isPySpace

/-- Strip a predicate from the right end. -/
def rstripP (p : Char → Bool) (l : List Char) : List Char :=
  (l.reverse.dropWhile p).reverse

/-- Python `str.strip()`. -/
def stripL (l : List Char) : List Char := rstripP isPySpace (lstrip l)

/-- Python `str.rstrip(";")`. -/
def rstripSemi (l : List Char) : List Char := rstripP (· == ';') l

/-- Python `q.endswith(";")`. -/
def endsWithSemi (l : List Char) : Bool :=
  match l.getLast? with
  | some c => c == ';'
  | none => false

/-! ### The deny-list regex

`DENY_RE = re.compile(r"\b(INSERT|UPDATE|DELETE|ALTER|DROP|CREATE|REPLACE|TRUNCATE)\b", re.I)`
-/

def denyKws : List (List Char) :=
  ["INSERT", "UPDATE", "DELETE", "ALTER", "DROP", "CREATE", "REPLACE", "TRUNCATE"].map String.data

/-- Whether `l` ends a whole word here: regex `\b` after a word character. -/
def nextNonWord : List Char → Bool
  | [] => true
  | c :: _ => !isWordChar c

/-- A single keyword matches at the head of `l` as a whole word
(case-insensitive literal, then `\b`). -/
def matchKw (kw l : List Char) : Bool :=
  prefCI kw l && nextNonWord (l.drop kw.length)

/-- `DENY_RE.search`: scan every position; `prevWord` records whether the
preceding character is a word character (for the leading `\b`; keywords start
with a letter, so the boundary holds iff the previous character is not a word
character). -/
def scanDeny (prevWord : Bool) : List Char → Bool
  | [] => false
  | c :: cs =>
    (!prevWord && denyKws.any (fun kw => matchKw kw (c :: cs))) || scanDeny (isWordChar c) cs

/-- `DENY_RE.search(q)` as a Bool. -/
def hasDeny (l : List Char) : Bool := scanDeny false l

/-! ### The LIMIT-tail regex

`HAS_LIMIT_TAIL_RE = re.compile(r"(?is)\blimit\b\s+\d+(\s*,\s*\d+)?\s*;?\s*$")`

The matcher below is the regex made deterministic: every `*`/`+` below is
greedy, and no backtracking can change the outcome because each quantified
class is disjoint from the literal that follows it.  Python's `$` (match at
end, or just before a final newline) is subsumed by the preceding `\s*`,
which may consume that newline.
-/

def limitKw : List Char := "limit".data

/-- Tail `\s*;?\s*$` of the LIMIT regex. -/
def eatEnd (l : List Char) : Bool :=
  match l.dropWhile isPySpace with
  | ';' :: r => (r.dropWhile isPySpace).isEmpty
  | r => r.isEmpty

/-- Part `(\s*,\s*\d+)?\s*;?\s*$` of the LIMIT regex, starting after the
first digit run. -/
def afterDigits (r : List Char) : Bool :=
  match r.dropWhile isPySpace with
  | ',' :: cr =>
    (match cr.dropWhile isPySpace with
     | d :: ds => isDigitC d && eatEnd (ds.dropWhile isDigitC)
     | [] => false)
  | _ => eatEnd r

/-- `\blimit\b\s+\d+(\s*,\s*\d+)?\s*;?\s*$` anchored at the head of `l`
(the leading `\b` is the caller's duty). -/
def limitTailAt (l : List Char) : Bool :=
  prefCI limitKw l &&
  (let r := l.drop 5
   nextNonWord r &&
   match r with
   | c :: cs =>
     isPySpace c &&
     (match cs.dropWhile isPySpace with
      | d :: ds => isDigitC d && afterDigits (ds.dropWhile isDigitC)
      | [] => false)
   | [] => false)

/-- `HAS_LIMIT_TAIL_RE.search`: scan every position, tracking the
word-character status of the previous character for the leading `\b`. -/
def scanLimit (prevWord : Bool) : List Char → Bool
  | [] => false
  | c :: cs => (!prevWord && limitTailAt (c :: cs)) || scanLimit (isWordChar c) cs

/-- `HAS_LIMIT_TAIL_RE.search(q)` as a Bool. -/
def hasLimitTail (l : List Char) : Bool := scanLimit false l

/-! ### `_safe_sql` itself -/

def errMulti : String := "Error: multiple statements are not allowed."
def errSelect : String := "Error: only SELECT statements are allowed."
def errDml : String := "Error: DML/DDL detected. Only read-only queries are permitted."

def selectL : List Char := "select".data

/-- ` LIMIT 5` appended by the gate. -/
def limitSfx : List Char := " LIMIT 5".data

/-- The multiple-statement test:
`q.count(";") > 1 or (q.endswith(";") and ";" in q[:-1])`. -/
def multiCond (q : List Char) : Bool :=
  decide (1 < q.count ';') || (endsWithSemi q && decide (';' ∈ q.dropLast))

/-- `q.lower().startswith("select")`. -/
def startsSelect (q : List Char) : Bool := selectL.isPrefixOf (lowerL q)

/-- The value of `q` after `q = q.strip()` and `q = q.rstrip(";").strip()`. -/
def normQ (s : List Char) : List Char := stripL (rstripSemi (stripL s))

/-- `_safe_sql` on the character-list model: strip, multiple-statement check,
normalise away one trailing `;`, SELECT-prefix check, deny-list check,
LIMIT-tail injection. -/
def safeSqlL (s : List Char) : List Char :=
  if multiCond (stripL s) then errMulti.data
  else if !startsSelect (normQ s) then errSelect.data
  else if hasDeny (normQ s) then errDml.data
  else if hasLimitTail (normQ s) then normQ s
  else normQ s ++ limitSfx

/-- `_safe_sql` on Lean strings. -/
def _safe_sql (s : String) : String := ⟨safeSqlL s.data⟩

/-- A rejection is the return of one of the three error strings. -/
def isErr (r : String) : Bool :=
  decide (r = errMulti) || decide (r = errSelect) || decide (r = errDml)

/-- Split a string at every `;`. -/
def splitSemi : List Char → List (List Char)
  | [] => [[]]
  | c :: cs =>
    if c = ';' then [] :: splitSemi cs
    else
      match splitSemi cs with
      | [] => [[c]]
      | s :: ss => (c :: s) :: ss

/-- Number of SQL statements in a string: the `;`-separated segments that are
not blank. -/
def numStmts (l : List Char) : Nat :=
  ((splitSemi l).filter (fun seg => !(stripL seg).isEmpty)).length

/-! ### `extract_sql_query` (`tools/extract_query.py`) -/

/-- Substring test: Python `pat in s`. -/
def containsSub (pat : List Char) : List Char → Bool
  | [] => pat.isEmpty
  | c :: cs => pat.isPrefixOf (c :: cs) || containsSub pat cs

def isHexDigit (c : Char) : Bool :=
  isDigitC c || (97 ≤ c.toNat && c.toNat ≤ 102) || (65 ≤ c.toNat && c.toNat ≤ 70)

def hexVal (c : Char) : Nat :=
  if isDigitC c then c.toNat - 48
  else if 97 ≤ c.toNat then c.toNat - 87
  else c.toNat - 55

def isOctDigit (c : Char) : Bool := 48 ≤ c.toNat && c.toNat ≤ 55

/-- ASCII-level model of CPython `bytes(s, "utf-8").decode("unicode_escape")`:
backslash escape sequences are decoded; an invalid two-character escape is
kept verbatim (CPython only warns); a truncated string, bad `\x`/`\u`/`\U`
hex or a `\N{...}` name (name lookup not modelled) yields `none`, standing
for the `UnicodeDecodeError` the caller catches. -/
def unicodeEscapeGo (fuel : Nat) : List Char → Option (List Char)
  | [] => some []
  | first :: cs0 =>
    match fuel with
    | 0 => none
    | f + 1 =>
      if first = '\\' then
        match cs0 with
        | [] => none
        | 'n' :: cs => (unicodeEscapeGo f cs).map ('\n' :: ·)
        | 't' :: cs => (unicodeEscapeGo f cs).map ('\t' :: ·)
        | 'r' :: cs => (unicodeEscapeGo f cs).map ('\r' :: ·)
        | '\\' :: cs => (unicodeEscapeGo f cs).map ('\\' :: ·)
        | '\'' :: cs => (unicodeEscapeGo f cs).map ('\'' :: ·)
        | '\"' :: cs => (unicodeEscapeGo f cs).map ('\"' :: ·)
        | 'a' :: cs => (unicodeEscapeGo f cs).map ('\x07' :: ·)
        | 'b' :: cs => (unicodeEscapeGo f cs).map ('\x08' :: ·)
        | 'f' :: cs => (unicodeEscapeGo f cs).map ('\x0c' :: ·)
        | 'v' :: cs => (unicodeEscapeGo f cs).map ('\x0b' :: ·)
        | '\n' :: cs => unicodeEscapeGo f cs
        | 'x' :: a :: b :: cs =>
          if isHexDigit a && isHexDigit b then
            (unicodeEscapeGo f cs).map (Char.ofNat (16 * hexVal a + hexVal b) :: ·)
          else none
        | 'x' :: _ => none
        | 'u' :: a :: b :: c :: d :: cs =>
          if isHexDigit a && isHexDigit b && isHexDigit c && isHexDigit d then
            (unicodeEscapeGo f cs).map
              (Char.ofNat (4096 * hexVal a + 256 * hexVal b + 16 * hexVal c + hexVal d) :: ·)
          else none
        | 'u' :: _ => none
        | 'N' :: _ => none
        | c :: d2 :: d3 :: cs =>
          if isOctDigit c then
            if isOctDigit d2 then
              if isOctDigit d3 then
                (unicodeEscapeGo f cs).map
                  (Char.ofNat (64 * (c.toNat - 48) + 8 * (d2.toNat - 48) + (d3.toNat - 48)) :: ·)
              else
                (unicodeEscapeGo f (d3 :: cs)).map
                  (Char.ofNat (8 * (c.toNat - 48) + (d2.toNat - 48)) :: ·)
            else (unicodeEscapeGo f (d2 :: d3 :: cs)).map (Char.ofNat (c.toNat - 48) :: ·)
          else (unicodeEscapeGo f (d2 :: d3 :: cs)).map ('\\' :: c :: ·)
        | c :: d2 :: cs =>
          if isOctDigit c then
            if isOctDigit d2 then
              (unicodeEscapeGo f cs).map (Char.ofNat (8 * (c.toNat - 48) + (d2.toNat - 48)) :: ·)
            else (unicodeEscapeGo f (d2 :: cs)).map (Char.ofNat (c.toNat - 48) :: ·)
          else (unicodeEscapeGo f (d2 :: cs)).map ('\\' :: c :: ·)
        | [c] =>
          if isOctDigit c then some [Char.ofNat (c.toNat - 48)]
          else some ['\\', c]
      else (unicodeEscapeGo f cs0).map (first :: ·)

/-- Entry point with enough fuel (every step consumes at least one
character). -/
def unicodeEscape (l : List Char) : Option (List Char) := unicodeEscapeGo (l.length + 1) l

/-- `re.sub(r"(?i)^```sql\s*", "", ·)`: the pattern is anchored at the start
(no `re.M`), so at most one occurrence is removed. -/
def fenceOpen (l : List Char) : List Char :=
  if prefCI ("```sql".data) l then (l.drop 6).dropWhile isPySpace else l

/-- `re.sub(r"(?i)```$", "", ·)`: applied by the source to a stripped string,
so `$` can only match at the very end. -/
def fenceClose (l : List Char) : List Char :=
  if ("```".data).isSuffixOf l then (l.reverse.drop 3).reverse else l

def headerAlts : List (List Char) :=
  ["sql", "generated sql query", "query output", "here is your sql"].map String.data

/-- `re.sub(r"(?i)^(sql|generated sql query|query output|here is your sql):?\s*", "", ·)`:
anchored, alternatives have pairwise distinct first letters, then an optional
colon and whitespace are consumed. -/
def headerDrop (l : List Char) : List Char :=
  match headerAlts.find? (fun h => prefCI h l) with
  | some h =>
    let r := l.drop h.length
    let r2 := match r with
      | ':' :: t => t
      | _ => r
    r2.dropWhile isPySpace
  | none => l

/-- Whether `(?m)^\s*--.*$` matches at this (line-start) position: greedy
`\s*` (which may span blank lines), then a literal `--`. -/
def commentAt (l : List Char) : Bool := ("--".data).isPrefixOf (l.dropWhile isPySpace)

/-- Remainder after the match of `^\s*--.*$` (the `.*` stops before a
newline, which is kept). -/
def skipComment (l : List Char) : List Char :=
  (((l.dropWhile isPySpace).drop 2).dropWhile (fun c => !(c == '\n')))

/-- `re.sub(r"(?m)^\s*--.*$", "", ·)`: scan left to right; `atStart` records
whether the position is the string start or follows a newline (regex `^` with
`re.M`).  `fuel` only bounds the recursion: each step consumes at least one
character, so `length + 1` suffices. -/
def subCommentLines (fuel : Nat) (atStart : Bool) (l : List Char) : List Char :=
  match fuel, l with
  | 0, l => l
  | _ + 1, [] => []
  | f + 1, c :: cs =>
    if atStart && commentAt (c :: cs) then subCommentLines f false (skipComment (c :: cs))
    else c :: subCommentLines f (c == '\n') cs

/-- `re.sub(r"--.*", "", ·)`: every `--` and the rest of its line are
removed. -/
def subInline (fuel : Nat) (l : List Char) : List Char :=
  match fuel, l with
  | 0, l => l
  | _ + 1, [] => []
  | f + 1, '-' :: '-' :: cs => subInline f (cs.dropWhile (fun c => !(c == '\n')))
  | f + 1, c :: cs => c :: subInline f cs

/-- Find the first `*/` and return what follows it. -/
def dropToClose : List Char → Option (List Char)
  | [] => none
  | '*' :: '/' :: r => some r
  | _ :: r => dropToClose r

/-- `re.sub(r"/\*.*?\*/", "", ·, flags=re.DOTALL)`: each `/*` is removed up
to the nearest following `*/` (non-greedy); an unclosed `/*` stays. -/
def subBlock (fuel : Nat) (l : List Char) : List Char :=
  match fuel, l with
  | 0, l => l
  | _ + 1, [] => []
  | f + 1, '/' :: '*' :: cs =>
    (match dropToClose cs with
     | some r => subBlock f r
     | none => '/' :: subBlock f ('*' :: cs))
  | f + 1, c :: cs => c :: subBlock f cs

/-- `str.splitlines()` worker (modelled for `\n`, `\r` and `\r\n` line
endings, the ones the repository produces). -/
def splitlinesGo (cur : List Char) : List Char → List (List Char)
  | [] => [cur.reverse]
  | '\r' :: '\n' :: r => cur.reverse :: (if r.isEmpty then [] else splitlinesGo [] r)
  | '\r' :: r => cur.reverse :: (if r.isEmpty then [] else splitlinesGo [] r)
  | '\n' :: r => cur.reverse :: (if r.isEmpty then [] else splitlinesGo [] r)
  | c :: r => splitlinesGo (c :: cur) r

/-- Python `str.splitlines()` (empty string gives no lines; no trailing empty
line). -/
def pySplitlines : List Char → List (List Char)
  | [] => []
  | c :: cs => splitlinesGo [] (c :: cs)

/-- `"\n".join(line for line in lines if line.strip())`. -/
def joinNonBlank (lines : List (List Char)) : List Char :=
  List.intercalate ['\n'] (lines.filter (fun ln => !(stripL ln).isEmpty))

/-- `extract_sql_query(llm_output, strip_comments)`: unicode-unescape when a
literal `\n`/`\t` appears (keeping the input if decoding fails, like the
`try`/`except`), strip code fences and headers, optionally remove comments
and blank lines, and strip. -/
def extract_sql_query (llm_output : String) (strip_comments : Bool) : String :=
  let l0 := llm_output.data
  let l1 :=
    if containsSub ("\\n".data) l0 || containsSub ("\\t".data) l0 then
      match unicodeEscape l0 with
      | some r => r
      | none => l0
    else l0
  let l2 := fenceOpen (stripL l1)
  let l3 := fenceClose (stripL l2)
  let l4 := headerDrop (stripL l3)
  let l5 :=
    if strip_comments then
      let a := subCommentLines (l4.length + 1) true l4
      let b := subInline (a.length + 1) a
      let c := subBlock (b.length + 1) b
      joinNonBlank (pySplitlines c)
    else l4
  ⟨stripL l5⟩

/-! ### The validation → execution workflow slice (`backend/agents/langgraph_agent.py`)

`_query_validation_node` extracts the candidate, runs the gate, and stores the
*pre-validation* `cleaned_query` in `cleaned_sql_query`, with
`is_safe = "unsafe" not in safety_result.lower()`.
`_should_continue_after_validation` routes `"execute"` when no error message is
set, `is_safe` holds and a query runner is configured.
`_query_execution_node` then calls `query_runner.run(state["cleaned_sql_query"])`.
-/

/-- The fields of the `_query_validation_node` state update that the routing
function and the execution node later read (`validation_result` is flattened
into `is_safe` / `safety_message`; in the guard branch those keys are simply
absent, modelled by their defaults). -/
structure ValidationUpdate where
  error_message : String
  cleaned_sql_query : String
  is_safe : Bool
  safety_message : String

/-- `_query_validation_node`, reduced to its data flow: guard on an empty
generated query, extract, gate, and the update dict it returns. -/
def _query_validation_node (raw_sql_query : String) : ValidationUpdate :=
  if raw_sql_query = "" then
    { error_message := "SQL generation returned no query."
      cleaned_sql_query := ""
      is_safe := false
      safety_message := "" }
  else
    let cleaned := extract_sql_query raw_sql_query true
    let safety := _safe_sql cleaned
    { error_message := ""
      cleaned_sql_query := cleaned
      is_safe := !containsSub ("unsafe".data) (lowerL safety.data)
      safety_message := safety }

/-- `_should_continue_after_validation(state)`: `query_runner` says whether a
runner is configured (`self.query_runner`). -/
def _should_continue_after_validation
    (error_message : String) (is_safe : Bool) (query_runner : Bool) : String :=
  if error_message ≠ "" then "error"
  else if is_safe && query_runner then "execute"
  else "complete"

/-- The string `_query_execution_node` hands to the collaborator:
`query_runner.run(state["cleaned_sql_query"])`. -/
def executionArg (cleaned_sql_query : String) : String := cleaned_sql_query

end Viz

-- quick sanity examples (claims exercised below)
example : Viz._safe_sql "SELECT * FROM t" = "SELECT * FROM t LIMIT 5" := by decide
example : Viz._safe_sql "SELECT 1; SELECT 2" = "SELECT 1; SELECT 2 LIMIT 5" := by decide
example : Viz._safe_sql "DELETE FROM t" = Viz.errSelect := by decide
example : Viz._safe_sql "SELECT 1;" = "SELECT 1 LIMIT 5" := by decide
example : Viz._safe_sql "SELECT * FROM t LIMIT 10" = "SELECT * FROM t LIMIT 10" := by decide
example : Viz._safe_sql "SELECT 1; DROP TABLE x;" = Viz.errMulti := by decide
example : Viz._safe_sql "SELECTED 1" = "SELECTED 1 LIMIT 5" := by decide
example : Viz._safe_sql "SELECT a FROM t where drop0 = 1" = "SELECT a FROM t where drop0 = 1 LIMIT 5" := by decide
example : Viz._safe_sql "SELECT a, drop FROM t" = Viz.errDml := by decide
example : Viz._safe_sql "  select x from y limit 3 ; " = "select x from y limit 3" := by decide
example : Viz._safe_sql "select x from y limit 3, 4" = "select x from y limit 3, 4" := by decide
example : Viz.numStmts ("SELECT 1; SELECT 2 LIMIT 5".data) = 2 := by decide

example : Viz.extract_sql_query "```sql\nSELECT 1\n```" false = "SELECT 1" := by decide
example : Viz.extract_sql_query "SELECT 1 -- get one\n" true = "SELECT 1" := by decide
example : Viz.extract_sql_query "DELETE FROM t" true = "DELETE FROM t" := by decide
example : Viz.extract_sql_query "SELECT * FROM t" true = "SELECT * FROM t" := by decide
example : Viz.extract_sql_query "sql: SELECT 2" false = "SELECT 2" := by decide
example : Viz.extract_sql_query "SELECT a /* c1 */ FROM t" true = "SELECT a  FROM t" := by decide
example : Viz.extract_sql_query "\\nSELECT 3" false = "SELECT 3" := by decide

example : (Viz._query_validation_node "DELETE FROM t").is_safe = true := by decide
example : (Viz._query_validation_node "DELETE FROM t").safety_message = Viz.errSelect := by decide
example : Viz._should_continue_after_validation "" true true = "execute" := by decide
example : (Viz._query_validation_node "SELECT * FROM t").cleaned_sql_query = "SELECT * FROM t" := by decide
example : (Viz._query_validation_node "SELECT * FROM t").safety_message = "SELECT * FROM t LIMIT 5" := by decide

/-!
## Lemma layer

Structural facts about the embedded primitives, building up to the branch
analysis of `safeSqlL` and the preservation of every gate condition under
appending ` LIMIT 5`.
-/

namespace Viz

lemma dropWhile_head_not (p : Char → Bool) (l : List Char) {c : Char}
    (h : (l.dropWhile p).head? = some c) : p c = false := by
  induction l with
  | nil => simp [List.dropWhile] at h
  | cons a as ih =>
    by_cases hpa : p a
    · rw [List.dropWhile_cons_of_pos hpa] at h
      exact ih h
    · rw [List.dropWhile_cons_of_neg hpa] at h
      simp only [List.head?_cons, Option.some.injEq] at h
      subst h
      simpa using hpa

lemma dropWhile_eq_self_of_head (p : Char → Bool) (l : List Char)
    (h : ∀ c, l.head? = some c → p c = false) : l.dropWhile p = l := by
  cases l with
  | nil => rfl
  | cons a as =>
    exact List.dropWhile_cons_of_neg (by simp [h a rfl])

lemma rstrip_spec (p : Char → Bool) (m : List Char) :
    m = rstripP p m ++ (m.reverse.takeWhile p).reverse ∧
      ∀ c ∈ (m.reverse.takeWhile p).reverse, p c = true := by
  constructor
  · calc m = m.reverse.reverse := m.reverse_reverse.symm
      _ = (m.reverse.takeWhile p ++ m.reverse.dropWhile p).reverse := by
          rw [List.takeWhile_append_dropWhile]
      _ = (m.reverse.dropWhile p).reverse ++ (m.reverse.takeWhile p).reverse := by
          rw [List.reverse_append]
      _ = rstripP p m ++ (m.reverse.takeWhile p).reverse := rfl
  · intro c hc
    rw [List.mem_reverse] at hc
    exact List.mem_takeWhile_imp hc

lemma rstripP_getLast_not (p : Char → Bool) (m : List Char) {c : Char}
    (h : (rstripP p m).getLast? = some c) : p c = false := by
  rw [rstripP, List.getLast?_reverse] at h
  exact dropWhile_head_not p m.reverse h

lemma rstripP_head (p : Char → Bool) (m : List Char) {c : Char}
    (h : (rstripP p m).head? = some c) : m.head? = some c := by
  have hspec := (rstrip_spec p m).1
  rw [hspec, List.head?_append, h]
  rfl

lemma rstripP_eq_self (p : Char → Bool) (m : List Char)
    (h : ∀ c, m.getLast? = some c → p c = false) : rstripP p m = m := by
  cases hm : m.reverse with
  | nil =>
    have : m = [] := by simpa using congrArg List.reverse hm
    subst this; rfl
  | cons a as =>
    have ha : m.getLast? = some a := by
      rw [← List.head?_reverse, hm]; rfl
    rw [rstripP, hm, List.dropWhile_cons_of_neg (by simp [h a ha]), ← hm, m.reverse_reverse]

lemma stripL_head_not (l : List Char) {c : Char}
    (h : (stripL l).head? = some c) : isPySpace c = false :=
  dropWhile_head_not isPySpace l (rstripP_head isPySpace (lstrip l) h)

lemma stripL_getLast_not (l : List Char) {c : Char}
    (h : (stripL l).getLast? = some c) : isPySpace c = false :=
  rstripP_getLast_not isPySpace (lstrip l) h

lemma stripL_eq_self (l : List Char)
    (h1 : ∀ c, l.head? = some c → isPySpace c = false)
    (h2 : ∀ c, l.getLast? = some c → isPySpace c = false) : stripL l = l := by
  show rstripP isPySpace (lstrip l) = l
  rw [lstrip, dropWhile_eq_self_of_head isPySpace l h1]
  exact rstripP_eq_self isPySpace l h2

lemma stripL_idem (l : List Char) : stripL (stripL l) = stripL l :=
  stripL_eq_self (stripL l) (fun _ h => stripL_head_not l h) (fun _ h => stripL_getLast_not l h)

lemma mem_stripL {l : List Char} {x : Char} (h : x ∈ stripL l) : x ∈ l := by
  simp only [stripL, rstripP, lstrip] at h
  rw [List.mem_reverse] at h
  have h2 := List.dropWhile_subset _ h
  rw [List.mem_reverse] at h2
  exact List.dropWhile_subset _ h2

end Viz

namespace Viz

lemma isPrefixOf_append {p l r : List Char} (h : p.isPrefixOf l = true) :
    p.isPrefixOf (l ++ r) = true := by
  rw [List.isPrefixOf_iff_prefix] at h ⊢
  exact h.trans (List.prefix_append l r)

lemma lowerL_append (q r : List Char) : lowerL (q ++ r) = lowerL q ++ lowerL r := by
  simp [lowerL]

lemma startsSelect_append (q r : List Char) (h : startsSelect q = true) :
    startsSelect (q ++ r) = true := by
  rw [startsSelect, lowerL_append]
  exact isPrefixOf_append h

lemma startsSelect_head_lower (q : List Char) (h : startsSelect q = true) :
    ∃ c cs, q = c :: cs ∧ lowerChar c = 's' := by
  cases q with
  | nil => exact absurd h (by decide)
  | cons c cs =>
    refine ⟨c, cs, rfl, ?_⟩
    rw [startsSelect, show selectL = 's' :: "elect".data from rfl] at h
    simp only [lowerL, List.map_cons, List.isPrefixOf, Bool.and_eq_true, beq_iff_eq] at h
    exact h.1.symm

lemma startsSelect_ne_nil (q : List Char) (h : startsSelect q = true) : q ≠ [] := by
  obtain ⟨c, cs, rfl, -⟩ := startsSelect_head_lower q h
  simp

/-! Preservation of the deny-list scan under appending ` LIMIT 5`. -/

lemma prefCI_sfx (kw : List Char) (hk : ∀ k ∈ kw, eqCI k ' ' = false) (t : List Char) :
    prefCI kw (t ++ limitSfx) = prefCI kw t := by
  induction kw generalizing t with
  | nil => rfl
  | cons k ks ih =>
    cases t with
    | nil =>
      have hk0 : eqCI k ' ' = false := hk k (List.mem_cons_self k ks)
      show prefCI (k :: ks) limitSfx = prefCI (k :: ks) []
      rw [show limitSfx = ' ' :: "LIMIT 5".data from rfl]
      simp [prefCI, hk0]
    | cons c ts =>
      simp only [List.cons_append, prefCI, List.append_eq]
      rw [ih (fun k' hk' => hk k' (List.mem_cons_of_mem _ hk')) ts]

lemma prefCI_length {kw t : List Char} (h : prefCI kw t = true) : kw.length ≤ t.length := by
  induction kw generalizing t with
  | nil => simp
  | cons k ks ih =>
    cases t with
    | nil => simp [prefCI] at h
    | cons c ts =>
      simp only [prefCI, Bool.and_eq_true] at h
      simpa using ih h.2

lemma nextNonWord_sfx (x : List Char) : nextNonWord (x ++ limitSfx) = nextNonWord x := by
  cases x with
  | nil => decide
  | cons c cs => rfl

lemma matchKw_sfx (kw : List Char) (hk : ∀ k ∈ kw, eqCI k ' ' = false) (t : List Char) :
    matchKw kw (t ++ limitSfx) = matchKw kw t := by
  rw [matchKw, matchKw, prefCI_sfx kw hk t]
  cases hp : prefCI kw t with
  | false => simp
  | true =>
    have hlen := prefCI_length hp
    rw [List.drop_append_of_le_length hlen, nextNonWord_sfx]

lemma denyAny_sfx (t : List Char) :
    (denyKws.any fun kw => matchKw kw (t ++ limitSfx)) = denyKws.any fun kw => matchKw kw t := by
  have hgen : ∀ kws : List (List Char), (∀ kw ∈ kws, ∀ k ∈ kw, eqCI k ' ' = false) →
      ((kws.any fun kw => matchKw kw (t ++ limitSfx)) = kws.any fun kw => matchKw kw t) := by
    intro kws hk
    induction kws with
    | nil => rfl
    | cons kw kws ih =>
      simp only [List.any_cons]
      rw [matchKw_sfx kw (hk kw (List.mem_cons_self kw kws)) t,
        ih (fun kw' h' => hk kw' (List.mem_cons_of_mem _ h'))]
  exact hgen denyKws (by decide)

lemma scanDeny_sfx (t : List Char) (p : Bool) :
    scanDeny p (t ++ limitSfx) = scanDeny p t := by
  induction t generalizing p with
  | nil =>
    show scanDeny p limitSfx = false
    cases p <;> decide
  | cons c ts ih =>
    simp only [List.cons_append, scanDeny, List.append_eq]
    rw [ih]
    have h3 := denyAny_sfx (c :: ts)
    rw [List.cons_append] at h3
    rw [h3]

lemma scanLimit_sfx_true (t : List Char) (p : Bool) : scanLimit p (t ++ limitSfx) = true := by
  induction t generalizing p with
  | nil =>
    show scanLimit p limitSfx = true
    cases p <;> decide
  | cons c ts ih =>
    simp only [List.cons_append, scanLimit, List.append_eq]
    rw [ih]
    simp

end Viz

namespace Viz

lemma rstripSemi_eq_self (l : List Char) (h : endsWithSemi l = false) : rstripSemi l = l := by
  refine rstripP_eq_self _ _ (fun c hc => ?_)
  simpa only [endsWithSemi, hc] using h

lemma normQ_stripped (s : List Char) : stripL (normQ s) = normQ s := by
  rw [normQ]
  exact stripL_idem _

/-- When the multiple-statement check passes, the normalised query neither
ends in `;` nor contains more than one `;`. -/
lemma normQ_of_multiCond_false (s : List Char) (hm : multiCond (stripL s) = false) :
    endsWithSemi (normQ s) = false ∧ (normQ s).count ';' ≤ 1 := by
  rw [multiCond, Bool.or_eq_false_iff] at hm
  obtain ⟨h1, h2⟩ := hm
  have hcount : (stripL s).count ';' ≤ 1 := Nat.not_lt.mp (of_decide_eq_false h1)
  cases hE : endsWithSemi (stripL s) with
  | false =>
    have hq : normQ s = stripL s := by
      rw [normQ, rstripSemi_eq_self _ hE, stripL_idem]
    rw [hq]
    exact ⟨hE, hcount⟩
  | true =>
    rw [hE, Bool.true_and, decide_eq_false_iff_not] at h2
    have hlast : (stripL s).getLast? = some ';' := by
      cases hgl : (stripL s).getLast? with
      | none =>
        simp only [endsWithSemi, hgl] at hE
        exact Bool.noConfusion hE
      | some c =>
        simp only [endsWithSemi, hgl, beq_iff_eq] at hE
        rw [hE]
    have hsplit : (stripL s).dropLast ++ [';'] = stripL s :=
      List.dropLast_append_getLast? ';' (by simpa [Option.mem_def] using hlast)
    have hrev : (stripL s).reverse = ';' :: (stripL s).dropLast.reverse := by
      conv_lhs => rw [← hsplit]
      rw [List.reverse_append]
      simp
    have hrs : rstripSemi (stripL s) = (stripL s).dropLast := by
      rw [rstripSemi, rstripP, hrev, List.dropWhile_cons_of_pos (by decide),
        dropWhile_eq_self_of_head _ _ ?_, List.reverse_reverse]
      intro c hc
      rw [List.head?_reverse] at hc
      have hcm : c ∈ (stripL s).dropLast := List.mem_of_getLast?_eq_some hc
      exact beq_eq_false_iff_ne.mpr (fun hcc => h2 (hcc ▸ hcm))
    have hnq : normQ s = stripL ((stripL s).dropLast) := by rw [normQ, hrs]
    have hmem2 : ';' ∉ normQ s := by
      rw [hnq]
      exact fun hx => h2 (mem_stripL hx)
    constructor
    · cases hgl2 : (normQ s).getLast? with
      | none => simp [endsWithSemi, hgl2]
      | some c =>
        have hcm : c ∈ normQ s := List.mem_of_getLast?_eq_some hgl2
        have : c ≠ ';' := fun hcc => hmem2 (hcc ▸ hcm)
        simp [endsWithSemi, hgl2, this]
    · simp [List.count_eq_zero.mpr hmem2]

end Viz

namespace Viz

lemma safeSqlL_multi (s : List Char) (h1 : multiCond (stripL s) = true) :
    safeSqlL s = errMulti.data := by
  simp [safeSqlL, h1]

lemma safeSqlL_notSelect (s : List Char) (h1 : multiCond (stripL s) = false)
    (h2 : startsSelect (normQ s) = false) : safeSqlL s = errSelect.data := by
  simp [safeSqlL, h1, h2]

lemma safeSqlL_deny (s : List Char) (h1 : multiCond (stripL s) = false)
    (h2 : startsSelect (normQ s) = true) (h3 : hasDeny (normQ s) = true) :
    safeSqlL s = errDml.data := by
  simp [safeSqlL, h1, h2, h3]

lemma safeSqlL_accepted (s : List Char) (h1 : multiCond (stripL s) = false)
    (h2 : startsSelect (normQ s) = true) (h3 : hasDeny (normQ s) = false) :
    safeSqlL s = if hasLimitTail (normQ s) then normQ s else normQ s ++ limitSfx := by
  simp [safeSqlL, h1, h2, h3]

/-- Every gate condition holds of the accepted output itself. -/
lemma accepted_out_facts (s : List Char) (h1 : multiCond (stripL s) = false)
    (h2 : startsSelect (normQ s) = true) (h3 : hasDeny (normQ s) = false) :
    stripL (safeSqlL s) = safeSqlL s ∧ endsWithSemi (safeSqlL s) = false ∧
      (safeSqlL s).count ';' ≤ 1 ∧ startsSelect (safeSqlL s) = true ∧
      hasDeny (safeSqlL s) = false ∧ hasLimitTail (safeSqlL s) = true := by
  obtain ⟨hE, hC⟩ := normQ_of_multiCond_false s h1
  rw [safeSqlL_accepted s h1 h2 h3]
  cases hL : hasLimitTail (normQ s) with
  | true =>
    simp only [if_true]
    exact ⟨normQ_stripped s, hE, hC, h2, h3, hL⟩
  | false =>
    simp only [Bool.false_eq_true, if_false]
    obtain ⟨a, as, hqa, -⟩ := startsSelect_head_lower _ h2
    have hhead : (normQ s).head? = some a := by rw [hqa]; rfl
    have hlastS : (normQ s ++ limitSfx).getLast? = some '5' := by
      rw [List.getLast?_append]
      rfl
    refine ⟨?_, ?_, ?_, startsSelect_append _ _ h2, ?_, scanLimit_sfx_true _ _⟩
    · refine stripL_eq_self _ (fun c hc => ?_) (fun c hc => ?_)
      · rw [List.head?_append, hhead] at hc
        have hca : a = c := by simpa using hc
        rw [← hca]
        exact stripL_head_not (rstripSemi (stripL s)) hhead
      · rw [hlastS] at hc
        have hc5 : '5' = c := by simpa using hc
        rw [← hc5]
        decide
    · simp [endsWithSemi, hlastS]
    · rw [List.count_append]
      have : limitSfx.count ';' = 0 := by decide
      omega
    · show scanDeny false (normQ s ++ limitSfx) = false
      rw [scanDeny_sfx]
      exact h3

/-- Re-running the gate on an accepted output returns it unchanged. -/
lemma safeSqlL_idem_core (s : List Char) (h1 : multiCond (stripL s) = false)
    (h2 : startsSelect (normQ s) = true) (h3 : hasDeny (normQ s) = false) :
    safeSqlL (safeSqlL s) = safeSqlL s := by
  obtain ⟨f1, f2, f3, f4, f5, f6⟩ := accepted_out_facts s h1 h2 h3
  set o := safeSqlL s with ho
  have hm : multiCond (stripL o) = false := by
    rw [f1]
    have hnl : ¬(1 < o.count ';') := Nat.not_lt.mpr f3
    simp [multiCond, f2, hnl]
  have hn : normQ o = o := by
    rw [normQ, f1, rstripSemi_eq_self o f2, f1]
  rw [safeSqlL_accepted o hm (by rw [hn]; exact f4) (by rw [hn]; exact f5), hn, f6]
  simp

/-- Accepted outputs start (case-insensitively) with `select`, hence are not
error strings. -/
lemma accepted_not_err {r : String} (h : startsSelect r.data = true) : isErr r = false := by
  have e1 : r ≠ errMulti := fun he => absurd (he ▸ h) (by decide)
  have e2 : r ≠ errSelect := fun he => absurd (he ▸ h) (by decide)
  have e3 : r ≠ errDml := fun he => absurd (he ▸ h) (by decide)
  simp [isErr, e1, e2, e3]

/-- The four-way branch structure of the gate, at the `String` level. -/
lemma safeSql_cases (s : String) :
    (_safe_sql s = errMulti ∨ _safe_sql s = errSelect ∨ _safe_sql s = errDml) ∨
      startsSelect (_safe_sql s).data = true := by
  cases h1 : multiCond (stripL s.data) with
  | true =>
    left; left
    show String.mk (safeSqlL s.data) = errMulti
    rw [safeSqlL_multi s.data h1]
  | false =>
    cases h2 : startsSelect (normQ s.data) with
    | false =>
      left; right; left
      show String.mk (safeSqlL s.data) = errSelect
      rw [safeSqlL_notSelect s.data h1 h2]
    | true =>
      cases h3 : hasDeny (normQ s.data) with
      | true =>
        left; right; right
        show String.mk (safeSqlL s.data) = errDml
        rw [safeSqlL_deny s.data h1 h2 h3]
      | false =>
        right
        exact (accepted_out_facts s.data h1 h2 h3).2.2.2.1

end Viz

/-!
## Claim theorems
-/

namespace Viz

/-- Supporting invariant (parts (b), (c), (d) of the spec's acceptance
invariant): every accepted output starts with `select` case-insensitively,
contains no denylisted keyword as a whole word, and ends in a LIMIT tail. -/
lemma accepted_invariant_bcd (s : String) (h : isErr (_safe_sql s) = false) :
    startsSelect (_safe_sql s).data = true ∧ hasDeny (_safe_sql s).data = false ∧
      hasLimitTail (_safe_sql s).data = true := by
  cases h1 : multiCond (stripL s.data) with
  | true =>
    exfalso
    have he : _safe_sql s = errMulti := by
      show String.mk (safeSqlL s.data) = errMulti
      rw [safeSqlL_multi s.data h1]
    rw [he] at h
    exact absurd h (by decide)
  | false =>
    cases h2 : startsSelect (normQ s.data) with
    | false =>
      exfalso
      have he : _safe_sql s = errSelect := by
        show String.mk (safeSqlL s.data) = errSelect
        rw [safeSqlL_notSelect s.data h1 h2]
      rw [he] at h
      exact absurd h (by decide)
    | true =>
      cases h3 : hasDeny (normQ s.data) with
      | true =>
        exfalso
        have he : _safe_sql s = errDml := by
          show String.mk (safeSqlL s.data) = errDml
          rw [safeSqlL_deny s.data h1 h2 h3]
        rw [he] at h
        exact absurd h (by decide)
      | false =>
        obtain ⟨-, -, -, f4, f5, f6⟩ := accepted_out_facts s.data h1 h2 h3
        exact ⟨f4, f5, f6⟩

/-- C1.  The spec says a single `;` that is not the final character is
rejected with `MultipleStatements`; the gate's test
`q.count(";") > 1 or (q.endswith(";") and ";" in q[:-1])` never fires on
exactly one internal `;`, so `SELECT 1; SELECT 2` is accepted (and even gets
a LIMIT appended), contradicting the spec and the code's own comment
"block multiple statements". -/
theorem C1_single_internal_semicolon_accepted :
    _safe_sql "SELECT 1; SELECT 2" = "SELECT 1; SELECT 2 LIMIT 5" ∧
      isErr (_safe_sql "SELECT 1; SELECT 2") = false := by
  exact ⟨by decide, by decide⟩

/-- C2.  The acceptance invariant fails in part (a): the accepted
normalizedQuery for `SELECT 1; SELECT 2` consists of two `;`-separated
statements, not one. -/
theorem C2_accepted_output_two_statements :
    isErr (_safe_sql "SELECT 1; SELECT 2") = false ∧
      numStmts (_safe_sql "SELECT 1; SELECT 2").data = 2 := by
  exact ⟨by decide, by decide⟩

/-- C3.  The workflow executes rejected and pre-validation queries: for the
candidate `DELETE FROM t` the gate rejects (`safety_message` is the
NotASelect error), yet `is_safe` is `true` (no error string contains
"unsafe"), the router sends the state to the execution node, and the string
handed to the runner is the pre-validation candidate; for the accepted
candidate `SELECT * FROM t` the executed string is again the candidate, not
the gate's normalized `SELECT * FROM t LIMIT 5`. -/
theorem C3_rejected_candidate_still_executed :
    (_query_validation_node "DELETE FROM t").safety_message = errSelect ∧
      (_query_validation_node "DELETE FROM t").is_safe = true ∧
      _should_continue_after_validation (_query_validation_node "DELETE FROM t").error_message
        (_query_validation_node "DELETE FROM t").is_safe true = "execute" ∧
      executionArg (_query_validation_node "DELETE FROM t").cleaned_sql_query = "DELETE FROM t" ∧
      (_query_validation_node "SELECT * FROM t").safety_message = "SELECT * FROM t LIMIT 5" ∧
      executionArg (_query_validation_node "SELECT * FROM t").cleaned_sql_query
        = "SELECT * FROM t" := by
  refine ⟨by decide, by decide, by decide, by decide, by decide, by decide⟩

/-- C4 (counterexample).  As stated the claim is false twice over:
`SELECTED 1` begins with the token `SELECTED` (not `SELECT`) yet is accepted,
because the gate tests the string prefix `select`, not a token; and
`DROP; a; b` begins with the token `DROP` yet is rejected with the
MultipleStatements error, because that check runs first. -/
theorem C4_cex_token_vs_prefix :
    _safe_sql "SELECTED 1" = "SELECTED 1 LIMIT 5" ∧ _safe_sql "DROP; a; b" = errMulti := by
  exact ⟨by decide, by decide⟩

/-- C4 (amended).  For every input that passes the multiple-statement check
and whose normalised form does not begin case-insensitively with the prefix
`select`, the gate returns the NotASelect error. -/
theorem C4_not_select_prefix_rejected (s : String)
    (h1 : multiCond (stripL s.data) = false) (h2 : startsSelect (normQ s.data) = false) :
    _safe_sql s = errSelect := by
  show String.mk (safeSqlL s.data) = errSelect
  rw [safeSqlL_notSelect s.data h1 h2]

/-- Witness for C4: `SHOW TABLES` passes the multiple-statement check, does
not start with `select`, and is rejected with the NotASelect error. -/
theorem C4_not_select_prefix_rejected_witness :
    multiCond (stripL "SHOW TABLES".data) = false ∧
      startsSelect (normQ "SHOW TABLES".data) = false ∧
      _safe_sql "SHOW TABLES" = errSelect :=
  ⟨by decide, by decide, C4_not_select_prefix_rejected "SHOW TABLES" (by decide) (by decide)⟩

/-- C5 (counterexample).  As stated the claim is false: `DELETE FROM t`
contains the denylisted word `DELETE` but is rejected with the NotASelect
error (the SELECT-prefix check runs first), and
`SELECT 1; DROP TABLE x; SELECT 2` contains `DROP` but is rejected with the
MultipleStatements error. -/
theorem C5_cex_earlier_checks_win :
    _safe_sql "DELETE FROM t" = errSelect ∧
      _safe_sql "SELECT 1; DROP TABLE x; SELECT 2" = errMulti := by
  exact ⟨by decide, by decide⟩

/-- C5 (amended).  For every input that passes the multiple-statement and
SELECT-prefix checks and whose normalised form contains a denylisted keyword
as a whole word (case-insensitively), the gate returns the ForbiddenKeyword
error. -/
theorem C5_deny_rejected (s : String)
    (h1 : multiCond (stripL s.data) = false) (h2 : startsSelect (normQ s.data) = true)
    (h3 : hasDeny (normQ s.data) = true) : _safe_sql s = errDml := by
  show String.mk (safeSqlL s.data) = errDml
  rw [safeSqlL_deny s.data h1 h2 h3]

/-- Witness for C5: `SELECT 1; DROP TABLE x` starts with SELECT, passes the
multiple-statement check (one internal `;`), contains `DROP`, and is
rejected with the ForbiddenKeyword error. -/
theorem C5_deny_rejected_witness :
    multiCond (stripL "SELECT 1; DROP TABLE x".data) = false ∧
      startsSelect (normQ "SELECT 1; DROP TABLE x".data) = true ∧
      hasDeny (normQ "SELECT 1; DROP TABLE x".data) = true ∧
      _safe_sql "SELECT 1; DROP TABLE x" = errDml :=
  ⟨by decide, by decide, by decide,
    C5_deny_rejected "SELECT 1; DROP TABLE x" (by decide) (by decide) (by decide)⟩

/-- C6.  Row-limit injection: on every candidate that passes all checks the
gate returns the normalised statement unchanged when it already ends with a
LIMIT tail, and otherwise appends the literal ` LIMIT 5`; in particular the
three examples of the spec hold. -/
theorem C6_limit_injection :
    (∀ s : String, multiCond (stripL s.data) = false → startsSelect (normQ s.data) = true →
        hasDeny (normQ s.data) = false →
        _safe_sql s = if hasLimitTail (normQ s.data) then String.mk (normQ s.data)
          else String.mk (normQ s.data ++ limitSfx)) ∧
      _safe_sql "SELECT * FROM t" = "SELECT * FROM t LIMIT 5" ∧
      _safe_sql "SELECT * FROM t LIMIT 10" = "SELECT * FROM t LIMIT 10" ∧
      _safe_sql "SELECT 1;" = "SELECT 1 LIMIT 5" := by
  refine ⟨fun s h1 h2 h3 => ?_, by decide, by decide, by decide⟩
  show String.mk (safeSqlL s.data) = _
  rw [safeSqlL_accepted s.data h1 h2 h3]
  exact apply_ite String.mk _ _ _

/-- Witness for C6: the universal part applied to `SELECT 2`. -/
theorem C6_limit_injection_witness :
    _safe_sql "SELECT 2" = if hasLimitTail (normQ "SELECT 2".data)
      then String.mk (normQ "SELECT 2".data) else String.mk (normQ "SELECT 2".data ++ limitSfx) :=
  C6_limit_injection.1 "SELECT 2" (by decide) (by decide) (by decide)

/-- C7.  Idempotence on accepted outputs: whenever the gate accepts, running
it again on the returned normalised query returns the identical string (no
second LIMIT clause is appended). -/
theorem C7_idempotent (s : String) (h : isErr (_safe_sql s) = false) :
    _safe_sql (_safe_sql s) = _safe_sql s := by
  cases h1 : multiCond (stripL s.data) with
  | true =>
    exfalso
    have he : _safe_sql s = errMulti := by
      show String.mk (safeSqlL s.data) = errMulti
      rw [safeSqlL_multi s.data h1]
    rw [he] at h
    exact absurd h (by decide)
  | false =>
    cases h2 : startsSelect (normQ s.data) with
    | false =>
      exfalso
      have he : _safe_sql s = errSelect := by
        show String.mk (safeSqlL s.data) = errSelect
        rw [safeSqlL_notSelect s.data h1 h2]
      rw [he] at h
      exact absurd h (by decide)
    | true =>
      cases h3 : hasDeny (normQ s.data) with
      | true =>
        exfalso
        have he : _safe_sql s = errDml := by
          show String.mk (safeSqlL s.data) = errDml
          rw [safeSqlL_deny s.data h1 h2 h3]
        rw [he] at h
        exact absurd h (by decide)
      | false =>
        show String.mk (safeSqlL (safeSqlL s.data)) = String.mk (safeSqlL s.data)
        exact congrArg String.mk (safeSqlL_idem_core s.data h1 h2 h3)

/-- Witness for C7: `SELECT 1` is accepted and re-validating the accepted
output `SELECT 1 LIMIT 5` returns it unchanged. -/
theorem C7_idempotent_witness :
    _safe_sql (_safe_sql "SELECT 1") = _safe_sql "SELECT 1" :=
  C7_idempotent "SELECT 1" (by decide)

/-- C8.  The gate is a total function into verdicts (totality is by
construction of the embedding: every branch returns a string): every outcome
is either exactly one of the three closed rejection strings or an accepted
query starting with `select`, and every rejection string carries the
`Error: ` message prefix. -/
theorem C8_total_closed_error_set :
    (∀ s : String, (_safe_sql s = errMulti ∨ _safe_sql s = errSelect ∨ _safe_sql s = errDml) ∨
        startsSelect (_safe_sql s).data = true) ∧
      ("Error: ".data.isPrefixOf errMulti.data = true) ∧
      ("Error: ".data.isPrefixOf errSelect.data = true) ∧
      ("Error: ".data.isPrefixOf errDml.data = true) :=
  ⟨safeSql_cases, by decide, by decide, by decide⟩

/-- C9.  The extractor's contract on the spec's two examples; it returns a
(possibly empty) string on every input by construction of the embedding
(every branch, including the `try`/`except` around unicode-unescaping,
produces a string). -/
theorem C9_extract_contract :
    (∀ (raw : String) (strip_comments : Bool), ∃ out : String,
        extract_sql_query raw strip_comments = out) ∧
      extract_sql_query "```sql\nSELECT 1\n```" false = "SELECT 1" ∧
      extract_sql_query "SELECT 1 -- get one\n" true = "SELECT 1" :=
  ⟨fun raw strip_comments => ⟨extract_sql_query raw strip_comments, rfl⟩, by decide, by decide⟩

/-- C10.  The two outcome kinds are distinguishable by prefix: the result
starts with `Error:` exactly when the candidate was rejected, and accepted
results start case-insensitively with `select`. -/
theorem C10_outcomes_distinguishable (s : String) :
    (("Error:".data.isPrefixOf (_safe_sql s).data) = isErr (_safe_sql s)) ∧
      (isErr (_safe_sql s) = false → startsSelect (_safe_sql s).data = true) := by
  rcases safeSql_cases s with (he | he | he) | hacc
  · rw [he]
    exact ⟨by decide, fun hc => absurd hc (by decide)⟩
  · rw [he]
    exact ⟨by decide, fun hc => absurd hc (by decide)⟩
  · rw [he]
    exact ⟨by decide, fun hc => absurd hc (by decide)⟩
  · have hne := accepted_not_err hacc
    refine ⟨?_, fun _ => hacc⟩
    rw [hne]
    obtain ⟨c, cs, hq, hlc⟩ := startsSelect_head_lower _ hacc
    have hcE : c ≠ 'E' := fun he => by
      rw [he] at hlc
      exact absurd hlc (by decide)
    have hbe : ('E' == c) = false := beq_eq_false_iff_ne.mpr (Ne.symm hcE)
    rw [hq, show ("Error:".data : List Char) = 'E' :: "rror:".data from rfl]
    simp [List.isPrefixOf, hbe]

/-- Witness for C10: the accepted case at `SELECT 1`. -/
theorem C10_outcomes_distinguishable_witness :
    startsSelect (_safe_sql "SELECT 1").data = true :=
  (C10_outcomes_distinguishable "SELECT 1").2 (by decide)

end Viz
